import Mathlib

/-
Verification of the preset-composition engine (resolveAddonName, loadPreset,
loadPresets, applyPresets) from scripts/prepare/bundle.ts.

Modelling conventions (shallow embedding of the JavaScript source):
- JavaScript runtime values are the inductive type PValue.  JS `undefined` and
  `null` are conflated into PValue.null (both are falsy and both make property
  access throw); JS numbers are modelled as integers (no claim involves
  non-integral numbers); functions are opaque identifiers whose behaviour is
  supplied by the environment (JsEnv.callFn).
- External collaborators (enhanced-resolve wrappers, safeResolve/safeResolveFrom,
  read-pkg-up, resolve-pkg-maps, safeResolveAll, interopRequireDefault, the
  logger) are capabilities recorded in environment structures; a resolver
  returning `false` is modelled as Option.none.  Collaborators are assumed not
  to return the empty-string path, so JS truthiness of a resolution result is
  Option.isSome.
- Asynchrony is erased: promise resolution is Except.ok, rejection/throw is
  Except.error, and the sequentialisation fixed by the code (Promise.all keeps
  input order; the applyPresets reduce chains .then) is preserved.  Logger
  calls are collected in order as a writer output.
- The re-entrant `presets.apply` capability built inside applyPresets is the
  opaque constructor PValue.applyClosure carrying the encoded captured preset
  list; no claim invokes it, so it is treated as an inert value by the
  predicates below.
-/

namespace SB

/-- JavaScript values flowing through the preset system. -/
inductive PValue where
  | null : PValue
  | bool : Bool → PValue
  | num : Int → PValue
  | str : String → PValue
  | arr : List PValue → PValue
  | obj : List (String × PValue) → PValue
  | fn : Nat → PValue
  | applyClosure : PValue → PValue

/-- JS truthiness of a value (NaN does not occur in the model). -/
def truthy : PValue → Bool
  | PValue.null => false
  | PValue.bool b => b
  | PValue.num n => n != 0
  | PValue.str s => s != ""
  | _ => true

/-- Truthiness of a possibly-absent value (absent = undefined = falsy). -/
def truthyO : Option PValue → Bool
  | some v => truthy v
  | none => false

/-- The source's isObject: non-null, typeof object, not an array. -/
def isObjectV : PValue → Bool
  | PValue.obj _ => true
  | _ => false

/-- Own enumerable fields of a value (non-objects spread to nothing; the
string-index corner of spreading a string is not exercised by the source). -/
def fieldsOf : PValue → List (String × PValue)
  | PValue.obj fs => fs
  | _ => []

/-- JS property lookup on a field list (objects have unique keys). -/
def lookupField (fs : List (String × PValue)) (k : String) : Option PValue :=
  (fs.find? (fun kv => kv.1 == k)).map (fun kv => kv.2)

/-- Rest-destructuring: the fields minus the listed keys, order preserved. -/
def removeFields (fs : List (String × PValue)) (ks : List String) : List (String × PValue) :=
  fs.filter (fun kv => !(ks.contains kv.1))

/-- JS object spread of b over a: key order keeps the first occurrence, the
value of a key present in both is taken from b. -/
def objMerge (a b : List (String × PValue)) : List (String × PValue) :=
  a.map (fun kv => (kv.1, (lookupField b kv.1).getD kv.2))
    ++ b.filter (fun kv => (lookupField a kv.1).isNone)

mutual

/-- JSON.stringify as used for log messages (string escaping and number
formatting are approximate; only the log text depends on it). -/
def jsonStringify : PValue → String
  | PValue.null => "null"
  | PValue.bool true => "true"
  | PValue.bool false => "false"
  | PValue.num n => toString n
  | PValue.str s => "\"" ++ s ++ "\""
  | PValue.arr xs => "[" ++ String.intercalate ("," ) (jsonStringifyArr xs) ++ "]"
  | PValue.obj fs => "\x7b" ++ String.intercalate ("," ) (jsonStringifyObj fs) ++ "\x7d"
  | PValue.fn _ => "undefined"
  | PValue.applyClosure _ => "undefined"

/-- Array elements: functions stringify to null inside arrays. -/
def jsonStringifyArr : List PValue → List String
  | [] => []
  | v :: vs =>
    (match v with
     | PValue.fn _ => "null"
     | PValue.applyClosure _ => "null"
     | w => jsonStringify w) :: jsonStringifyArr vs

/-- Object fields: function-valued fields are omitted. -/
def jsonStringifyObj : List (String × PValue) → List String
  | [] => []
  | (k, v) :: fs =>
    match v with
    | PValue.fn _ => jsonStringifyObj fs
    | PValue.applyClosure _ => jsonStringifyObj fs
    | w => ("\"" ++ k ++ "\":" ++ jsonStringify w) :: jsonStringifyObj fs

end

/-- One logger call. -/
inductive LogEntry where
  | warn : String → LogEntry
  | error : String → LogEntry

/-- A loaded preset record: name, exported shape minus addons/presets, options. -/
structure LoadedPreset where
  name : PValue
  preset : List (String × PValue)
  options : PValue

/- ------------------------------------------------------------------ -/
/- Module-resolution collaborators and the two resolveAddonName bodies. -/
/- ------------------------------------------------------------------ -/

/-- What read-pkg-up returns: the manifest path and its exports map (opaque). -/
structure PkgInfo where
  path : String
  exports : PValue

/-- Collaborators used by the first resolveAddonName implementation.
browserResolver/nodeResolver are the enhanced-resolve wrappers (false = none);
safeResolve/safeResolveFrom the generic fallback; readUp is read-pkg-up keyed
by the cwd option (none models resolved = false); resolveImports is
resolve-pkg-maps (none models a thrown error); cwd is process.cwd(), the
default base of the one-argument browserResolver call. -/
structure ResolverEnv where
  browserResolver : String → String → Option String
  nodeResolver : String → String → Option String
  safeResolve : String → Option String
  safeResolveFrom : String → String → Option String
  readUp : Option String → Option PkgInfo
  resolveImports : PValue → String → List String → Option (List String)
  cwd : String

/-- String prefix test over the character lists (kernel-reducible). -/
def strStartsWith (s p : String) : Bool := p.data.isPrefixOf s.data

/-- String suffix test over the character lists (kernel-reducible). -/
def strEndsWith (s p : String) : Bool := p.data.isSuffixOf s.data

/-- Does p occur as a contiguous segment of l. -/
def charsInfix (p : List Char) : List Char → Bool
  | [] => p.isEmpty
  | c :: t => p.isPrefixOf (c :: t) || charsInfix p t

/-- String.prototype.includes. -/
def strContains (s p : String) : Bool := charsInfix p.data s.data

/-- The characters before the last slash, when the list has one. -/
def dropLastSeg : List Char → Option (List Char)
  | [] => none
  | c :: cs =>
    match dropLastSeg cs with
    | some rest => some (c :: rest)
    | none => if c = '/' then some [] else none

/-- path.dirname on an absolute posix path with at least two segments. -/
def dirnameStr (s : String) : String :=
  match dropLastSeg s.data with
  | some l => String.mk l
  | none => "."

/-- slash(path.join(a, b)) for the shapes the source produces: a leading ./ on
the second segment is dropped; other dot-segment normalisation is not needed. -/
def joinPath (a b : String) : String :=
  let b2 := if strStartsWith b ("./") then String.mk (b.data.drop 2) else b
  a ++ "/" ++ b2

def extSuffixes : List String := ["", ".js", ".mjs", ".ts", ".tsx", ".jsx"]

/-- The test of /\/(manager|register(-panel)?)(\.(js|mjs|ts|tsx|jsx))?$/ . -/
def matchesManagerRegex (s : String) : Bool :=
  ["/manager", "/register", "/register-panel"].any
    (fun b => extSuffixes.any (fun e => strEndsWith s (b ++ e)))

/-- The test of /\/(preset)(\.(js|mjs|ts|tsx|jsx))?$/ . -/
def matchesPresetRegex (s : String) : Bool :=
  extSuffixes.any (fun e => strEndsWith s ("/preset" ++ e))

/-- A previewAnnotations element: a bare specifier or a bare/absolute pair. -/
inductive PreviewEntry where
  | bare : String → PreviewEntry
  | withAbsolute : String → String → PreviewEntry

/-- The virtual variant of a resolved addon; a field is none when the
corresponding key is absent from the returned object. -/
structure VirtualAddon where
  name : String
  managerEntries : Option (List String)
  previewAnnotations : Option (List PreviewEntry)
  presets : Option (List (String × PValue))

/-- Result of resolveAddonName: type presets or type virtual. -/
inductive ResolvedAddon where
  | presets : String → ResolvedAddon
  | virtual : VirtualAddon → ResolvedAddon

/-- First resolveAddonName implementation: general browser/node resolvers plus
export-map lookup (bundle.ts lines 325-448). -/
def resolveAddonName1 (env : ResolverEnv) (configDir : String) (name : String)
    (options : PValue) : Option ResolvedAddon :=
  let resolve := if strStartsWith name ("/") then env.safeResolve else env.safeResolveFrom configDir
  let resolved := (env.browserResolver name configDir).orElse
    (fun _ => (env.nodeResolver name configDir).orElse (fun _ => resolve name))
  let resolvedNode := env.nodeResolver name configDir
  let resolvedBrowser := env.browserResolver name configDir
  let pkg := env.readUp resolved
  let earlyManager : Option ResolvedAddon :=
    match resolvedBrowser with
    | some rb =>
      if matchesManagerRegex rb then
        some (ResolvedAddon.virtual ⟨name, some [rb], none, none⟩)
      else none
    | none => none
  let earlyPreset : Option ResolvedAddon :=
    match resolvedNode with
    | some rn => if matchesPresetRegex rn then some (ResolvedAddon.presets rn) else none
    | none => none
  let early := if resolved.isSome then earlyManager.orElse (fun _ => earlyPreset) else none
  match early with
  | some r => some r
  | none =>
    match pkg with
    | none => none
    | some p =>
      let dir := dirnameStr p.path
      let resolveFromExportsBrowser := fun (input : String) =>
        match env.resolveImports p.exports input ["browser", "import", "default"] with
        | some (q :: _) => some (joinPath dir q)
        | _ => none
      let resolveFromExportsNode := fun (input : String) =>
        match env.resolveImports p.exports input ["node", "require", "default"] with
        | some (q :: _) => env.browserResolver (joinPath name q) env.cwd
        | _ => none
      let resolveBrowser := fun (input : String) =>
        (env.browserResolver (name ++ "/" ++ input) dir).orElse
          (fun _ => resolveFromExportsBrowser ("./" ++ input))
      let resolveNode := fun (input : String) =>
        (env.nodeResolver (name ++ "/" ++ input) dir).orElse
          (fun _ => resolveFromExportsNode ("./" ++ input))
      let managerFile := resolveBrowser ("manager")
      let registerFile := (resolveBrowser ("register")).orElse
        (fun _ => resolveBrowser ("register-panel"))
      let previewFile := resolveBrowser ("preview")
      let previewFileAbsolute := env.browserResolver (name ++ "/preview") dir
      let presetFile := resolveNode ("preset")
      if !(managerFile.isSome || previewFile.isSome) && presetFile.isSome then
        match presetFile with
        | some pf => some (ResolvedAddon.presets pf)
        | none => none
      else if managerFile.isSome || registerFile.isSome || previewFile.isSome || presetFile.isSome then
        let managerEntries :=
          (match managerFile with | some m => [m] | none => []) ++
          (match managerFile, registerFile, presetFile with
           | none, some r, none => [r]
           | _, _, _ => [])
        some (ResolvedAddon.virtual
          ⟨name,
           (if managerEntries.isEmpty then none else some managerEntries),
           (match previewFile with
            | some pv =>
              some [(match previewFileAbsolute with
                     | some pa => PreviewEntry.withAbsolute pv pa
                     | none => PreviewEntry.bare pv)]
            | none => none),
           (match presetFile with
            | some pf => some [(pf, options)]
            | none => none)⟩)
      else
        match resolved with
        | some r => some (ResolvedAddon.presets r)
        | none => none

/-- The record produced by the safeResolveAll collaborator. -/
structure SafeResolveAllResult where
  managerFile : Option String
  registerFile : Option String
  previewFile : Option String
  previewFileAbsolute : Option String
  presetFile : Option String
  fallback : Option String

/-- Collaborators used by the second resolveAddonName implementation. -/
structure ResolverEnv2 where
  safeResolveAll : String → String → Option SafeResolveAllResult
  stripAbsNodeModulesPath : String → String

/-- previewFile.includes of the node_modules segment. -/
def containsNodeModules (s : String) : Bool :=
  strContains s ("node_modules")

/-- Second resolveAddonName implementation: consolidated safeResolveAll
collaborator (bundle.ts lines 721-778). -/
def resolveAddonName2 (env : ResolverEnv2) (configDir : String) (name : String)
    (options : PValue) : Option ResolvedAddon :=
  match env.safeResolveAll name configDir with
  | none => none
  | some r =>
    if r.managerFile.isSome || r.registerFile.isSome || r.previewFile.isSome || r.presetFile.isSome then
      let managerEntries :=
        (match r.managerFile with | some m => [m] | none => []) ++
        (match r.managerFile, r.registerFile, r.presetFile with
         | none, some rg, none => [rg]
         | _, _, _ => [])
      some (ResolvedAddon.virtual
        ⟨name,
         (if managerEntries.isEmpty then none else some managerEntries),
         (match r.previewFile with
          | some pv =>
            some [(match r.previewFileAbsolute with
                   | some pa =>
                     PreviewEntry.withAbsolute
                       (if containsNodeModules pv then env.stripAbsNodeModulesPath pv else pv) pa
                   | none => PreviewEntry.bare pv)]
          | none => none),
         (match r.presetFile with
          | some pf => some [(pf, options)]
          | none => none)⟩)
    else
      match r.fallback with
      | some f => some (ResolvedAddon.presets f)
      | none => none

/- ------------------------------------------------------------------ -/
/- The loader/applier environment.                                     -/
/- ------------------------------------------------------------------ -/

/-- Environment of the loader and applier: the module loader
(interopRequireDefault), the behaviour of user-supplied functions, and the
resolution collaborators used by resolveAddonName inside map. -/
structure JsEnv where
  importDefault : PValue → Except String PValue
  callFn : Nat → List PValue → Except String PValue
  resolver : ResolverEnv

/- ------------------------------------------------------------------ -/
/- applyPresets (bundle.ts lines 567-618).                             -/
/- ------------------------------------------------------------------ -/

/-- A LoadedPreset record as the JS object seen through presetsList. -/
def encodeLoadedPreset (p : LoadedPreset) : PValue :=
  PValue.obj [("name", p.name), ("preset", PValue.obj p.preset), ("options", p.options)]

/-- The combinedOptions object built for a function contribution (bundle.ts
lines 590-600): spread of storybookOptions, args and the preset's options,
then the presetsList back-reference and the re-entrant apply capability. -/
def combinedOptions (sb args opts : PValue) (presets : List LoadedPreset) :
    List (String × PValue) :=
  objMerge (objMerge (objMerge (fieldsOf sb) (fieldsOf args)) (fieldsOf opts))
    [("presetsList", PValue.arr (presets.map encodeLoadedPreset)),
     ("presets", PValue.obj [("apply", PValue.applyClosure (PValue.arr (presets.map encodeLoadedPreset)))])]

/-- Merging of a non-function contribution into the accumulator (bundle.ts
lines 608-616): concatenate two arrays, spread-merge two objects, otherwise
the contribution replaces the accumulator. -/
def mergeChange : PValue → PValue → PValue
  | PValue.arr a, PValue.arr b => PValue.arr (a ++ b)
  | PValue.obj a, PValue.obj b => PValue.obj (objMerge a b)
  | _, b => b

/-- One step of the applyPresets reduce (bundle.ts lines 580-617): a falsy
contribution is skipped, a function contribution is called with the awaited
accumulator and combinedOptions, otherwise the contribution is merged. -/
def applyStep (env : JsEnv) (presets : List LoadedPreset) (extension : String)
    (args sb : PValue) (acc : Except String PValue) (p : LoadedPreset) :
    Except String PValue :=
  let change := lookupField p.preset extension
  if !(truthyO change) then acc
  else
    match change with
    | some (PValue.fn i) =>
      acc.bind (fun cfg => env.callFn i [cfg, PValue.obj (combinedOptions sb args p.options presets)])
    | some v => acc.bind (fun cfg => Except.ok (mergeChange cfg v))
    | none => acc

/-- applyPresets (bundle.ts lines 567-618): the left fold of applyStep over
the loaded presets, seeded with the resolved config promise. -/
def applyPresets (env : JsEnv) (presets : List LoadedPreset) (extension : String)
    (config args sb : PValue) : Except String PValue :=
  if presets.isEmpty then Except.ok config
  else presets.foldl (applyStep env presets extension args sb) (Except.ok config)

/- ------------------------------------------------------------------ -/
/- loadPreset / loadPresets (bundle.ts lines 286-565).                 -/
/- ------------------------------------------------------------------ -/

/-- The message of the TypeError raised by property access on null/undefined. -/
def typeErrorName : String := "TypeError: Cannot read properties of null"

/-- The expression `input.name ? input.name : input` (total on non-null
values; the null case is caught by getContent before the value is used). -/
def nameOf (input : PValue) : PValue :=
  let n := lookupField (fieldsOf input) ("name")
  if truthyO n then n.getD PValue.null else input

/-- The expression `input.options ? input.options : objEmpty`. -/
def presetOptionsOf (input : PValue) : PValue :=
  let o := lookupField (fieldsOf input) ("options")
  if truthyO o then o.getD PValue.null else PValue.obj []

/-- getContent (bundle.ts lines 478-486): virtual inputs strip type/name and
return the rest, others import the module named by `input.name ? : input`.
Property access on null throws (the TypeError branch). -/
def getContent (env : JsEnv) (input : PValue) : Except String PValue :=
  if (match input with | PValue.null => true | _ => false) then Except.error typeErrorName
  else if (match lookupField (fieldsOf input) ("type") with
           | some (PValue.str t) => t == "virtual"
           | _ => false) then
    Except.ok (PValue.obj (removeFields (fieldsOf input) ["type", "name"]))
  else env.importDefault (nameOf input)

/-- resolvePresetFunction (bundle.ts lines 293-306): call a function input
with the merged options and spread the result, copy an array input, and
return the empty list otherwise.  Spreading a non-iterable call result is the
thrown TypeError. -/
def resolvePresetFunction (env : JsEnv) (input : Option PValue)
    (presetOptions sb : PValue) : Except String (List PValue) :=
  match input with
  | some (PValue.fn i) =>
    (env.callFn i [PValue.obj (objMerge (fieldsOf sb) (fieldsOf presetOptions))]).bind
      (fun r =>
        match r with
        | PValue.arr xs => Except.ok xs
        | _ => Except.error "TypeError: result is not iterable")
  | some (PValue.arr xs) => Except.ok xs
  | _ => Except.ok []

/-- The configDir destructured from storybookOptions by map. -/
def configDirOf (sb : PValue) : String :=
  match lookupField (fieldsOf sb) ("configDir") with
  | some (PValue.str s) => s
  | _ => ""

/-- A previewAnnotations element as a JS value. -/
def previewEntryToPValue : PreviewEntry → PValue
  | PreviewEntry.bare b => PValue.str b
  | PreviewEntry.withAbsolute b a =>
    PValue.obj [("bare", PValue.str b), ("absolute", PValue.str a)]

/-- A ResolvedAddon as the JS object spread by map into its result. -/
def resolvedToFields : ResolvedAddon → List (String × PValue)
  | ResolvedAddon.presets n => [("type", PValue.str ("presets")), ("name", PValue.str n)]
  | ResolvedAddon.virtual v =>
    [("type", PValue.str ("virtual")), ("name", PValue.str v.name)] ++
    (match v.managerEntries with
     | some es => [("managerEntries", PValue.arr (es.map PValue.str))]
     | none => []) ++
    (match v.previewAnnotations with
     | some es => [("previewAnnotations", PValue.arr (es.map previewEntryToPValue))]
     | none => []) ++
    (match v.presets with
     | some ps => [("presets", PValue.arr (ps.map (fun np => PValue.obj [("name", PValue.str np.1), ("options", np.2)])))]
     | none => [])

/-- The logger.error text of map's catch branch. -/
def addonValueError : String :=
  "Addon value should end in /manager or /preview or /register OR it should be a valid preset https://storybook.js.org/docs/react/addons/writing-presets/"

/-- The map collaborator over addon entries (bundle.ts lines 450-476).  The
try/catch around resolveAddonName corresponds to the non-string-name branch,
the only fault the resolveAddonName model can raise. -/
def mapItem (env : JsEnv) (sb : PValue) (item : PValue) : Option PValue × List LogEntry :=
  let options : Option PValue :=
    if isObjectV item then
      (let o := lookupField (fieldsOf item) ("options")
       if truthyO o then o else none)
    else none
  let nameV : PValue :=
    if isObjectV item then (lookupField (fieldsOf item) ("name")).getD PValue.null else item
  match nameV with
  | PValue.str s =>
    match resolveAddonName1 env.resolver (configDirOf sb) s (options.getD PValue.null) with
    | some r =>
      (some (PValue.obj (objMerge
          (match options with | some o => [("options", o)] | none => [])
          (resolvedToFields r))), [])
    | none =>
      (none, [LogEntry.warn ("Could not resolve addon \"" ++ s ++ "\", skipping. Is it installed?")])
  | _ => (none, [LogEntry.error (addonValueError ++ "\n" ++ jsonStringify item)])

/-- subAddons.map(map(storybookOptions)) followed by filter(Boolean), with the
logs the mapping emits. -/
def mapAddons (env : JsEnv) (sb : PValue) (items : List PValue) :
    List PValue × List LogEntry :=
  let results := items.map (mapItem env sb)
  (results.filterMap (fun r => r.1), (results.map (fun r => r.2)).flatten)

/-- The warning text of loadPreset's catch branch. -/
def failMessage (input : PValue) (level : Nat) : String :=
  if level > 0 then
    "  Failed to load preset: " ++ jsonStringify input ++ " on level " ++ toString level
  else
    "  Failed to load preset: " ++ jsonStringify input

/-- The two logger calls made by loadPreset's catch branch. -/
def failLogs (input : PValue) (level : Nat) (e : String) : List LogEntry :=
  [LogEntry.warn (failMessage input level), LogEntry.error e]

/-- The `is not a valid preset` error message. -/
def notValidPresetMessage (input : PValue) : String :=
  jsonStringify input ++ " is not a valid preset"

/-- loadPresets as a function of the per-element loader: the empty-input guard
returns nothing, otherwise per-element results are concatenated in input
order (Promise.all keeps order; reduce concatenates). -/
def loadPresetsF (lp : PValue → Option (List LoadedPreset × List LogEntry)) :
    List PValue → Option (List LoadedPreset × List LogEntry)
  | [] => some ([], [])
  | p :: ps =>
    match lp p, loadPresetsF lp ps with
    | some rl, some rsls => some (rl.1 ++ rsls.1, rl.2 ++ rsls.2)
    | _, _ => none

/-- The body of loadPreset before its catch-all (bundle.ts lines 493-534).
recur performs loadPresets at the surrounding recursion depth.  The result is
none when the recursion fuel is exhausted, otherwise the thrown-or-returned
outcome together with the logs emitted along the way. -/
def loadPresetBody (env : JsEnv)
    (recur : List PValue → Nat → Option (List LoadedPreset × List LogEntry))
    (input : PValue) (level : Nat) (sb : PValue) :
    Option (Except String (List LoadedPreset) × List LogEntry) :=
  let name := nameOf input
  let presetOptions := presetOptionsOf input
  match getContent env input with
  | Except.error e => some (Except.error e, [])
  | Except.ok contents0 =>
    match (match contents0 with
           | PValue.fn i => env.callFn i [sb, presetOptions]
           | c => Except.ok c) with
    | Except.error e => some (Except.error e, [])
    | Except.ok contents =>
      match contents with
      | PValue.arr xs =>
        (recur xs (level + 1)).map (fun rl => (Except.ok rl.1, rl.2))
      | PValue.obj fs =>
        match resolvePresetFunction env (lookupField fs ("presets")) presetOptions sb with
        | Except.error e => some (Except.error e, [])
        | Except.ok subPresets =>
          match resolvePresetFunction env (lookupField fs ("addons")) presetOptions sb with
          | Except.error e => some (Except.error e, [])
          | Except.ok subAddons =>
            match recur subPresets (level + 1) with
            | none => none
            | some r1 =>
              let mapped := mapAddons env sb subAddons
              match recur mapped.1 (level + 1) with
              | none => none
              | some r2 =>
                some (Except.ok (r1.1 ++ r2.1 ++
                        [⟨name, removeFields fs ["addons", "presets"], presetOptions⟩]),
                      r1.2 ++ mapped.2 ++ r2.2)
      | _ => some (Except.error (notValidPresetMessage input), [])

/-- loadPreset (bundle.ts lines 488-545) with explicit recursion fuel: the
body wrapped in the catch-all that logs a warning and the error and returns
the empty list. -/
def loadPreset (env : JsEnv) : Nat → PValue → Nat → PValue →
    Option (List LoadedPreset × List LogEntry)
  | 0, _, _, _ => none
  | Nat.succ fuel, input, level, sb =>
    match loadPresetBody env
        (fun ps lvl => loadPresetsF (fun p => loadPreset env fuel p lvl sb) ps)
        input level sb with
    | none => none
    | some (Except.ok r, logs) => some (r, logs)
    | some (Except.error e, logs) => some ([], logs ++ failLogs input level e)

/-- loadPresets (bundle.ts lines 547-565). -/
def loadPresets (env : JsEnv) (fuel : Nat) (ps : List PValue) (level : Nat)
    (sb : PValue) : Option (List LoadedPreset × List LogEntry) :=
  loadPresetsF (fun p => loadPreset env fuel p level sb) ps

/-- The body of loadPreset at a given fuel, with the recursion tied back to
loadPresets; loadPreset (fuel+1) is the catch-wrapping of this body. -/
def loadPresetBodyAt (env : JsEnv) (fuel : Nat) (input : PValue) (level : Nat)
    (sb : PValue) : Option (Except String (List LoadedPreset) × List LogEntry) :=
  loadPresetBody env (fun ps lvl => loadPresets env fuel ps lvl sb) input level sb

/- ------------------------------------------------------------------ -/
/- Helper lemmas.                                                      -/
/- ------------------------------------------------------------------ -/

theorem lookupField_cons (k1 : String) (v : PValue) (fs : List (String × PValue))
    (k : String) :
    lookupField ((k1, v) :: fs) k = if (k1 == k) = true then some v else lookupField fs k := by
  by_cases h : (k1 == k) = true
  · simp [lookupField, List.find?_cons_of_pos, h]
  · have h2 : (k1 == k) = false := by simpa using h
    simp [lookupField, List.find?, h2]

theorem lookupField_append (xs ys : List (String × PValue)) (k : String) :
    lookupField (xs ++ ys) k
      = (lookupField xs k).orElse (fun _ => lookupField ys k) := by
  induction xs with
  | nil => rfl
  | cons kv xs ih =>
    rcases kv with ⟨k1, v⟩
    rw [List.cons_append, lookupField_cons, lookupField_cons]
    by_cases h : (k1 == k) = true
    · simp [h]
    · simp [h, ih]

theorem lookupField_mapMerge (a b : List (String × PValue)) (k : String) :
    lookupField (a.map (fun kv => (kv.1, (lookupField b kv.1).getD kv.2))) k
      = (lookupField a k).map (fun v => (lookupField b k).getD v) := by
  induction a with
  | nil => rfl
  | cons kv a ih =>
    rcases kv with ⟨k1, v⟩
    rw [List.map_cons, lookupField_cons, lookupField_cons]
    by_cases h : (k1 == k) = true
    · have hk : k1 = k := by simpa using h
      subst hk
      simp [h]
    · simp [h, ih]

theorem lookupField_filterKey (b : List (String × PValue)) (q : String → Bool)
    (k : String) (hq : q k = true) :
    lookupField (b.filter (fun kv => q kv.1)) k = lookupField b k := by
  induction b with
  | nil => rfl
  | cons kv b ih =>
    rcases kv with ⟨k1, v⟩
    by_cases h : (k1 == k) = true
    · have hk : k1 = k := by simpa using h
      subst hk
      simp [List.filter_cons, hq, lookupField_cons, h]
    · rw [lookupField_cons]
      simp only [List.filter_cons]
      by_cases hq1 : q k1 = true
      · simp only [hq1, if_true]
        rw [lookupField_cons]
        simp [h, ih]
      · simp only [Bool.not_eq_true] at hq1
        simp [hq1, h, ih]

/-- Field lookup through a spread merge: the spread source wins on key
collision, the base supplies the rest. -/
theorem lookupField_objMerge (a b : List (String × PValue)) (k : String) :
    lookupField (objMerge a b) k
      = (lookupField b k).orElse (fun _ => lookupField a k) := by
  unfold objMerge
  rw [lookupField_append, lookupField_mapMerge]
  cases ha : lookupField a k with
  | none =>
    rw [lookupField_filterKey b (fun key => (lookupField a key).isNone) k (by simp [ha])]
    cases lookupField b k <;> rfl
  | some v =>
    cases hb : lookupField b k <;> simp [hb]

theorem applyStep_error (env : JsEnv) (L : List LoadedPreset) (extension : String)
    (args sb : PValue) (e : String) (p : LoadedPreset) :
    applyStep env L extension args sb (Except.error e) p = Except.error e := by
  unfold applyStep
  cases h : lookupField p.preset extension with
  | none => simp [truthyO]
  | some v =>
    by_cases ht : truthy v = true
    · simp only [truthyO, ht, Bool.not_true, Bool.false_eq_true, if_false]
      cases v <;> rfl
    · simp only [Bool.not_eq_true] at ht
      simp [truthyO, ht]

theorem foldl_applyStep_error (env : JsEnv) (L : List LoadedPreset)
    (extension : String) (args sb : PValue) (e : String) (ps : List LoadedPreset) :
    ps.foldl (applyStep env L extension args sb) (Except.error e) = Except.error e := by
  induction ps with
  | nil => rfl
  | cons p ps ih => rw [List.foldl_cons, applyStep_error, ih]

theorem loadPresetsF_append (lp : PValue → Option (List LoadedPreset × List LogEntry))
    (ps qs : List PValue) :
    loadPresetsF lp (ps ++ qs)
      = (match loadPresetsF lp ps, loadPresetsF lp qs with
         | some a, some b => some (a.1 ++ b.1, a.2 ++ b.2)
         | _, _ => none) := by
  induction ps with
  | nil =>
    simp only [List.nil_append, loadPresetsF]
    cases loadPresetsF lp qs <;> simp
  | cons p ps ih =>
    simp only [List.cons_append, loadPresetsF, List.append_eq]
    rw [ih]
    cases lp p <;> cases loadPresetsF lp ps <;> cases loadPresetsF lp qs <;> simp

theorem loadPresetsF_isSome (lp : PValue → Option (List LoadedPreset × List LogEntry))
    (ps : List PValue) (h : ∀ p ∈ ps, (lp p).isSome) :
    (loadPresetsF lp ps).isSome := by
  induction ps with
  | nil => rfl
  | cons p ps ih =>
    have h1 : (lp p).isSome := h p (List.mem_cons_self p ps)
    have h2 : (loadPresetsF lp ps).isSome := ih (fun q hq => h q (List.mem_cons_of_mem p hq))
    simp only [loadPresetsF]
    cases hp : lp p with
    | none => rw [hp] at h1; exact absurd h1 (by simp)
    | some rl =>
      cases hps : loadPresetsF lp ps with
      | none => rw [hps] at h2; exact absurd h2 (by simp)
      | some a => simp

/- ------------------------------------------------------------------ -/
/- Claims about the extension applier.                                 -/
/- ------------------------------------------------------------------ -/

/-- C5: for every seed config and args, applying any extension key over an
empty loaded-preset list returns the seed config unchanged. -/
theorem claim_C5_apply_empty_identity (env : JsEnv) (extension : String)
    (config args sb : PValue) :
    applyPresets env [] extension config args sb = Except.ok config := rfl

/-- C6: when both the accumulator and a non-function contribution are
sequences the fold concatenates them in order (accumulator first): over two
presets contributing the sequences xs and ys, a sequence seed zs folds to
zs ++ xs ++ ys; in particular seed [] over P1 contributing [1] and P2
contributing [2] yields [1, 2]. -/
theorem claim_C6_sequences_concatenate :
    (∀ (env : JsEnv) (extension : String) (args sb n1 n2 o1 o2 : PValue)
       (xs ys zs : List PValue),
      applyPresets env
          [⟨n1, [(extension, PValue.arr xs)], o1⟩, ⟨n2, [(extension, PValue.arr ys)], o2⟩]
          extension (PValue.arr zs) args sb
        = Except.ok (PValue.arr (zs ++ xs ++ ys))) ∧
    (∀ (env : JsEnv) (args sb : PValue),
      applyPresets env
          [⟨PValue.str ("P1"), [("ext", PValue.arr [PValue.num 1])], PValue.obj []⟩,
           ⟨PValue.str ("P2"), [("ext", PValue.arr [PValue.num 2])], PValue.obj []⟩]
          ("ext") (PValue.arr []) args sb
        = Except.ok (PValue.arr [PValue.num 1, PValue.num 2])) := by
  constructor
  · intro env extension args sb n1 n2 o1 o2 xs ys zs
    simp [applyPresets, applyStep, lookupField_cons, truthyO, truthy, mergeChange,
      Except.bind, List.append_assoc]
  · intro env args sb
    rfl

/-- C7: when both the accumulator and a non-function contribution are keyed
structures the fold shallow-merges them with the contribution's keys winning:
over two presets contributing objects A and B, an object seed C folds to the
spread merge (C then A then B), whose lookup prefers B, then A, then C; in
particular seed objEmpty over P1 contributing the keyed value a maps to 1 and
P2 contributing a maps to 2, b maps to 3, yields a maps to 2, b maps to 3. -/
theorem claim_C7_objects_shallow_merge :
    (∀ (env : JsEnv) (extension : String) (args sb n1 n2 o1 o2 : PValue)
       (A B C : List (String × PValue)),
      applyPresets env
          [⟨n1, [(extension, PValue.obj A)], o1⟩, ⟨n2, [(extension, PValue.obj B)], o2⟩]
          extension (PValue.obj C) args sb
        = Except.ok (PValue.obj (objMerge (objMerge C A) B))) ∧
    (∀ (A B C : List (String × PValue)) (k : String),
      lookupField (objMerge (objMerge C A) B) k
        = (lookupField B k).orElse (fun _ =>
            (lookupField A k).orElse (fun _ => lookupField C k))) ∧
    (∀ (env : JsEnv) (args sb : PValue),
      applyPresets env
          [⟨PValue.str ("P1"), [("ext", PValue.obj [("a", PValue.num 1)])], PValue.obj []⟩,
           ⟨PValue.str ("P2"), [("ext", PValue.obj [("a", PValue.num 2), ("b", PValue.num 3)])], PValue.obj []⟩]
          ("ext") (PValue.obj []) args sb
        = Except.ok (PValue.obj [("a", PValue.num 2), ("b", PValue.num 3)])) := by
  refine ⟨?_, ?_, ?_⟩
  · intro env extension args sb n1 n2 o1 o2 A B C
    simp [applyPresets, applyStep, lookupField_cons, truthyO, truthy, mergeChange,
      Except.bind]
  · intro A B C k
    rw [lookupField_objMerge, lookupField_objMerge]
  · intro env args sb
    rfl

/-- C8: if a function contribution invoked during an apply fold faults (its
call throws or its deferred result rejects), the error propagates uncaught as
the result of the whole applyPresets call, whatever presets follow the
faulting one; no later contribution is applied. -/
theorem claim_C8_function_fault_propagates (env : JsEnv) (extension : String)
    (config args sb acc : PValue) (e : String) (pre post : List LoadedPreset)
    (bad : LoadedPreset) (i : Nat)
    (hfold : pre.foldl (applyStep env (pre ++ bad :: post) extension args sb)
        (Except.ok config) = Except.ok acc)
    (hchange : lookupField bad.preset extension = some (PValue.fn i))
    (hcall : env.callFn i [acc, PValue.obj (combinedOptions sb args bad.options (pre ++ bad :: post))]
        = Except.error e) :
    applyPresets env (pre ++ bad :: post) extension config args sb = Except.error e := by
  have hne : (pre ++ bad :: post).isEmpty = false := by cases pre <;> rfl
  have hstep : applyStep env (pre ++ bad :: post) extension args sb (Except.ok acc) bad
      = Except.error e := by
    unfold applyStep
    rw [hchange]
    simpa [truthyO, truthy, Except.bind] using hcall
  unfold applyPresets
  rw [hne]
  simp only [Bool.false_eq_true, if_false]
  rw [List.foldl_append, hfold, List.foldl_cons, hstep, foldl_applyStep_error]

/-- C9: the apply fold skips a preset's contribution whenever the value at
the extension key is falsy, not only when the key is absent: a present but
falsy contribution (0, false, the empty string, null) leaves the accumulator
unchanged, both step-wise and for the whole fold. -/
theorem claim_C9_falsy_contribution_skipped (env : JsEnv) (extension : String)
    (args sb : PValue) (p : LoadedPreset) (v : PValue)
    (hv : lookupField p.preset extension = some v) (hfalsy : truthy v = false) :
    (∀ (L : List LoadedPreset) (acc : Except String PValue),
      applyStep env L extension args sb acc p = acc) ∧
    (∀ (rest : List LoadedPreset) (config : PValue),
      applyPresets env (p :: rest) extension config args sb
        = rest.foldl (applyStep env (p :: rest) extension args sb) (Except.ok config)) := by
  have hstep : ∀ (L : List LoadedPreset) (acc : Except String PValue),
      applyStep env L extension args sb acc p = acc := by
    intro L acc
    unfold applyStep
    rw [hv]
    simp [truthyO, hfalsy]
  refine ⟨hstep, ?_⟩
  intro rest config
  unfold applyPresets
  simp only [List.isEmpty_cons, Bool.false_eq_true, if_false]
  rw [List.foldl_cons, hstep]

/-- C10: the combinedOptions object passed to a function contribution merges
with fixed precedence: the preset's own options over the per-call args over
the host options, and the presetsList and presets keys (the back-reference
and the re-entrant apply capability) are set last, overriding any same-named
key from the three spread sources. -/
theorem claim_C10_combined_options_precedence (env : JsEnv) (extension : String)
    (args sb : PValue) (L : List LoadedPreset) (p : LoadedPreset) (i : Nat)
    (acc : PValue)
    (hchange : lookupField p.preset extension = some (PValue.fn i)) :
    (applyStep env L extension args sb (Except.ok acc) p
      = env.callFn i [acc, PValue.obj (combinedOptions sb args p.options L)]) ∧
    (lookupField (combinedOptions sb args p.options L) ("presetsList")
      = some (PValue.arr (L.map encodeLoadedPreset))) ∧
    (lookupField (combinedOptions sb args p.options L) ("presets")
      = some (PValue.obj [("apply", PValue.applyClosure (PValue.arr (L.map encodeLoadedPreset)))])) ∧
    (∀ k : String, k ≠ "presetsList" → k ≠ "presets" →
      lookupField (combinedOptions sb args p.options L) k
        = (lookupField (fieldsOf p.options) k).orElse (fun _ =>
            (lookupField (fieldsOf args) k).orElse (fun _ =>
              lookupField (fieldsOf sb) k))) := by
  refine ⟨?_, ?_, ?_, ?_⟩
  · unfold applyStep
    rw [hchange]
    simp [truthyO, truthy, Except.bind]
  · unfold combinedOptions
    rw [lookupField_objMerge]
    rfl
  · unfold combinedOptions
    rw [lookupField_objMerge]
    rfl
  · intro k hk1 hk2
    unfold combinedOptions
    rw [lookupField_objMerge, lookupField_objMerge, lookupField_objMerge]
    have e1 : ("presetsList" == k) = false := by
      simpa using fun h => hk1 h.symm
    have e2 : ("presets" == k) = false := by
      simpa using fun h => hk2 h.symm
    rw [lookupField_cons, lookupField_cons]
    simp [e1, e2, lookupField]

/- Concrete environments used by the witnesses. -/

/-- A resolver environment in which nothing resolves. -/
def trivialResolver : ResolverEnv :=
  ⟨fun _ _ => none, fun _ _ => none, fun _ => none, fun _ _ => none,
   fun _ => none, fun _ _ _ => none, "/"⟩

/-- An environment whose module loader and functions always fault. -/
def errEnv : JsEnv where
  importDefault := fun _ => Except.error ("no module")
  callFn := fun _ _ => Except.error ("boom")
  resolver := trivialResolver

/-- Witness for C8: with a function contribution whose call faults, the whole
apply call rejects with that error even though a later preset contributes. -/
theorem claim_C8_witness :
    applyPresets errEnv
        ([] ++ (⟨PValue.str ("bad"), [("ext", PValue.fn 0)], PValue.obj []⟩ : LoadedPreset) ::
          [⟨PValue.str ("good"), [("ext", PValue.arr [PValue.num 1])], PValue.obj []⟩])
        ("ext") (PValue.obj []) (PValue.obj []) (PValue.obj [])
      = Except.error ("boom") :=
  claim_C8_function_fault_propagates errEnv ("ext") (PValue.obj []) (PValue.obj [])
    (PValue.obj []) (PValue.obj []) ("boom") []
    [⟨PValue.str ("good"), [("ext", PValue.arr [PValue.num 1])], PValue.obj []⟩]
    ⟨PValue.str ("bad"), [("ext", PValue.fn 0)], PValue.obj []⟩ 0 rfl rfl rfl

/-- Witness for C9: a present contribution equal to 0 leaves the accumulator
unchanged. -/
theorem claim_C9_witness :
    applyStep errEnv [] ("ext") (PValue.obj []) (PValue.obj []) (Except.ok (PValue.num 7))
        ⟨PValue.str ("P"), [("ext", PValue.num 0)], PValue.obj []⟩
      = Except.ok (PValue.num 7) :=
  (claim_C9_falsy_contribution_skipped errEnv ("ext") (PValue.obj []) (PValue.obj [])
    ⟨PValue.str ("P"), [("ext", PValue.num 0)], PValue.obj []⟩ (PValue.num 0) rfl rfl).1
    [] (Except.ok (PValue.num 7))

/-- Witness for C10: on a host-options object that also defines x and presets,
the combined options expose the capability under presets (overriding the host
key) and the host value under x. -/
theorem claim_C10_witness :
    lookupField
        (combinedOptions (PValue.obj [("x", PValue.num 1), ("presets", PValue.num 9)])
          (PValue.obj []) (PValue.obj [])
          [⟨PValue.str ("P"), [("ext", PValue.fn 0)], PValue.obj []⟩]) ("presets")
      = some (PValue.obj [("apply", PValue.applyClosure (PValue.arr
          [encodeLoadedPreset ⟨PValue.str ("P"), [("ext", PValue.fn 0)], PValue.obj []⟩]))]) ∧
    lookupField
        (combinedOptions (PValue.obj [("x", PValue.num 1), ("presets", PValue.num 9)])
          (PValue.obj []) (PValue.obj [])
          [⟨PValue.str ("P"), [("ext", PValue.fn 0)], PValue.obj []⟩]) ("x")
      = some (PValue.num 1) := by
  constructor
  · exact (claim_C10_combined_options_precedence errEnv ("ext")
      (PValue.obj []) (PValue.obj [("x", PValue.num 1), ("presets", PValue.num 9)])
      [⟨PValue.str ("P"), [("ext", PValue.fn 0)], PValue.obj []⟩]
      ⟨PValue.str ("P"), [("ext", PValue.fn 0)], PValue.obj []⟩ 0 (PValue.obj []) rfl).2.2.1
  · exact (claim_C10_combined_options_precedence errEnv ("ext")
      (PValue.obj []) (PValue.obj [("x", PValue.num 1), ("presets", PValue.num 9)])
      [⟨PValue.str ("P"), [("ext", PValue.fn 0)], PValue.obj []⟩]
      ⟨PValue.str ("P"), [("ext", PValue.fn 0)], PValue.obj []⟩ 0 (PValue.obj []) rfl).2.2.2
      ("x") (by decide) (by decide)

/- ------------------------------------------------------------------ -/
/- Claims about the preset loader.                                     -/
/- ------------------------------------------------------------------ -/

/-- C3: a specifier whose loading faults (resolution, import, or malformed
contents) yields the empty list from loadPreset after a logged warning (and
the logged error); removing a specifier that contributes nothing never
changes the entries contributed by the other specifiers; and a loadPresets
pass over specifiers that each complete always completes. -/
theorem claim_C3_fault_containment :
    (∀ (env : JsEnv) (fuel : Nat) (input : PValue) (level : Nat) (sb : PValue)
       (e : String) (logs : List LogEntry),
      loadPresetBodyAt env fuel input level sb = some (Except.error e, logs) →
      loadPreset env (fuel + 1) input level sb
        = some ([], logs ++ failLogs input level e)) ∧
    (∀ (env : JsEnv) (fuel : Nat) (pre post : List PValue) (bad : PValue)
       (level : Nat) (sb : PValue) (logsB : List LogEntry),
      loadPreset env fuel bad level sb = some ([], logsB) →
      (loadPresets env fuel (pre ++ bad :: post) level sb).map Prod.fst
        = (loadPresets env fuel (pre ++ post) level sb).map Prod.fst) ∧
    (∀ (env : JsEnv) (fuel : Nat) (ps : List PValue) (level : Nat) (sb : PValue),
      (∀ p ∈ ps, (loadPreset env fuel p level sb).isSome) →
      (loadPresets env fuel ps level sb).isSome) := by
  refine ⟨?_, ?_, ?_⟩
  · intro env fuel input level sb e logs h
    have h2 : loadPresetBody env
        (fun ps lvl => loadPresetsF (fun p => loadPreset env fuel p lvl sb) ps)
        input level sb = some (Except.error e, logs) := h
    simp only [loadPreset]
    rw [h2]
  · intro env fuel pre post bad level sb logsB h
    simp only [loadPresets]
    rw [loadPresetsF_append, loadPresetsF_append]
    simp only [loadPresetsF]
    rw [h]
    cases loadPresetsF (fun p => loadPreset env fuel p level sb) pre <;>
      cases loadPresetsF (fun p => loadPreset env fuel p level sb) post <;> simp
  · intro env fuel ps level sb h
    exact loadPresetsF_isSome _ ps h

/-- C4: a specifier whose contents is a keyed structure expands to the loaded
entries of its presets sub-list, then the loaded entries of its (resolved and
kept) addons sub-list, then exactly one entry carrying the specifier's name,
the contents minus the presets/addons keys, and its options; and loadPresets
is an append homomorphism, so the flat output preserves depth-first,
left-to-right input order across sibling specifiers. -/
theorem claim_C4_object_expansion_order :
    (∀ (env : JsEnv) (fuel : Nat) (input : PValue) (level : Nat) (sb : PValue)
       (fs : List (String × PValue)) (sp sa : List PValue)
       (r1 r2 : List LoadedPreset × List LogEntry),
      getContent env input = Except.ok (PValue.obj fs) →
      resolvePresetFunction env (lookupField fs ("presets")) (presetOptionsOf input) sb
        = Except.ok sp →
      resolvePresetFunction env (lookupField fs ("addons")) (presetOptionsOf input) sb
        = Except.ok sa →
      loadPresets env fuel sp (level + 1) sb = some r1 →
      loadPresets env fuel (mapAddons env sb sa).1 (level + 1) sb = some r2 →
      loadPreset env (fuel + 1) input level sb
        = some (r1.1 ++ r2.1 ++
                  [⟨nameOf input, removeFields fs ["addons", "presets"], presetOptionsOf input⟩],
                r1.2 ++ (mapAddons env sb sa).2 ++ r2.2)) ∧
    (∀ (env : JsEnv) (fuel : Nat) (ps qs : List PValue) (level : Nat) (sb : PValue)
       (a b : List LoadedPreset × List LogEntry),
      loadPresets env fuel ps level sb = some a →
      loadPresets env fuel qs level sb = some b →
      loadPresets env fuel (ps ++ qs) level sb = some (a.1 ++ b.1, a.2 ++ b.2)) := by
  constructor
  · intro env fuel input level sb fs sp sa r1 r2 h1 h2 h3 h4 h5
    have h4b : loadPresetsF (fun p => loadPreset env fuel p (level + 1) sb) sp = some r1 := h4
    have h5b : loadPresetsF (fun p => loadPreset env fuel p (level + 1) sb)
        (mapAddons env sb sa).1 = some r2 := h5
    simp only [loadPreset, loadPresetBody, h1, h2, h3, h4b, h5b]
  · intro env fuel ps qs level sb a b ha hb
    have ha2 : loadPresetsF (fun p => loadPreset env fuel p level sb) ps = some a := ha
    have hb2 : loadPresetsF (fun p => loadPreset env fuel p level sb) qs = some b := hb
    simp only [loadPresets]
    rw [loadPresetsF_append, ha2, hb2]

/-- A loader environment with two well-formed modules (root, whose presets
sub-list names p1, and p1 itself), one well-formed leaf (good), and a module
loader that fails on every other specifier. -/
def wEnv : JsEnv where
  importDefault := fun v =>
    match v with
    | PValue.str s =>
      if s = "good" then Except.ok (PValue.obj [("k", PValue.num 1)])
      else if s = "root" then
        Except.ok (PValue.obj
          [("presets", PValue.arr [PValue.str ("p1")]),
           ("addons", PValue.arr []),
           ("k", PValue.num 1)])
      else if s = "p1" then Except.ok (PValue.obj [("q", PValue.num 2)])
      else Except.error ("Cannot find module")
    | _ => Except.error ("Cannot find module")
  callFn := fun _ _ => Except.error ("boom")
  resolver := trivialResolver

/-- Witness for C3: the failing specifier bad yields the empty list plus the
warning and error logs; its presence next to the valid specifier good does
not change good's contributed entries; and the pass over good completes. -/
theorem claim_C3_witness :
    loadPreset wEnv 1 (PValue.str ("bad")) 0 (PValue.obj [])
      = some ([], failLogs (PValue.str ("bad")) 0 ("Cannot find module")) ∧
    (loadPresets wEnv 1 ([PValue.str ("good")] ++ PValue.str ("bad") :: []) 0 (PValue.obj [])).map Prod.fst
      = (loadPresets wEnv 1 ([PValue.str ("good")] ++ []) 0 (PValue.obj [])).map Prod.fst ∧
    (loadPresets wEnv 1 [PValue.str ("good")] 0 (PValue.obj [])).isSome := by
  refine ⟨?_, ?_, ?_⟩
  · exact claim_C3_fault_containment.1 wEnv 0 (PValue.str ("bad")) 0 (PValue.obj [])
      ("Cannot find module") [] rfl
  · exact claim_C3_fault_containment.2.1 wEnv 1 [PValue.str ("good")] [] (PValue.str ("bad"))
      0 (PValue.obj []) (failLogs (PValue.str ("bad")) 0 ("Cannot find module")) rfl
  · exact claim_C3_fault_containment.2.2 wEnv 1 [PValue.str ("good")] 0 (PValue.obj [])
      (by intro p hp
          simp only [List.mem_singleton] at hp
          subst hp
          rfl)

/-- Witness for C4: the object-shaped module root expands to p1's entry
followed by root's own entry (contents minus the presets/addons keys), and
loadPresets concatenates sibling expansions in input order. -/
theorem claim_C4_witness :
    loadPreset wEnv 2 (PValue.str ("root")) 0 (PValue.obj [])
      = some ([⟨PValue.str ("p1"), [("q", PValue.num 2)], PValue.obj []⟩,
               ⟨PValue.str ("root"), [("k", PValue.num 1)], PValue.obj []⟩], []) ∧
    loadPresets wEnv 1 ([PValue.str ("good")] ++ [PValue.str ("p1")]) 0 (PValue.obj [])
      = some ([⟨PValue.str ("good"), [("k", PValue.num 1)], PValue.obj []⟩,
               ⟨PValue.str ("p1"), [("q", PValue.num 2)], PValue.obj []⟩], []) := by
  constructor
  · exact claim_C4_object_expansion_order.1 wEnv 1 (PValue.str ("root")) 0 (PValue.obj [])
      [("presets", PValue.arr [PValue.str ("p1")]), ("addons", PValue.arr []), ("k", PValue.num 1)]
      [PValue.str ("p1")] []
      ([⟨PValue.str ("p1"), [("q", PValue.num 2)], PValue.obj []⟩], [])
      ([], []) rfl rfl rfl rfl rfl
  · exact claim_C4_object_expansion_order.2 wEnv 1 [PValue.str ("good")] [PValue.str ("p1")]
      0 (PValue.obj [])
      ([⟨PValue.str ("good"), [("k", PValue.num 1)], PValue.obj []⟩], [])
      ([⟨PValue.str ("p1"), [("q", PValue.num 2)], PValue.obj []⟩], []) rfl rfl

/- ------------------------------------------------------------------ -/
/- Claims about the two resolveAddonName implementations.              -/
/- ------------------------------------------------------------------ -/

/-- Collaborators for a package addon-x that exposes only a preset sub-entry:
the bare specifier resolves (browser) to the package index, the package
manifest is found there, the preset sub-entry resolves (node) and the
manager, register and preview probes all fail. -/
def presetOnlyResolver : ResolverEnv where
  browserResolver := fun input fromDir =>
    if input = "addon-x" && fromDir = "/proj" then
      some "/proj/node_modules/addon-x/index.js"
    else none
  nodeResolver := fun input fromDir =>
    if input = "addon-x/preset" && fromDir = "/proj/node_modules/addon-x" then
      some "/proj/node_modules/addon-x/preset.js"
    else none
  safeResolve := fun _ => none
  safeResolveFrom := fun _ _ => none
  readUp := fun r =>
    match r with
    | some s =>
      if s = "/proj/node_modules/addon-x/index.js" then
        some ⟨"/proj/node_modules/addon-x/package.json", PValue.null⟩
      else none
    | none => none
  resolveImports := fun _ _ _ => none
  cwd := "/"

/-- The safeResolveAll collaborator reporting exactly the per-entry results
the probes of presetOnlyResolver produce (no manager, register or preview
file, the preset file, and the direct resolution as fallback). -/
def presetOnlyResolver2 : ResolverEnv2 where
  safeResolveAll := fun nm cd =>
    if nm = "addon-x" && cd = "/proj" then
      some ⟨none, none, none, none, some "/proj/node_modules/addon-x/preset.js",
            some "/proj/node_modules/addon-x/index.js"⟩
    else none
  stripAbsNodeModulesPath := fun s => s

/-- C1: the two resolveAddonName implementations are not functionally
equivalent.  On a specifier whose collaborators report identical per-entry
results (only the preset sub-entry resolves), the first implementation
returns a presets result while the second returns a virtual result carrying
the preset, so the results differ. -/
theorem claim_C1_implementations_differ :
    resolveAddonName1 presetOnlyResolver ("/proj") ("addon-x") PValue.null
      = some (ResolvedAddon.presets ("/proj/node_modules/addon-x/preset.js")) ∧
    resolveAddonName2 presetOnlyResolver2 ("/proj") ("addon-x") PValue.null
      = some (ResolvedAddon.virtual ⟨"addon-x", none, none,
          some [("/proj/node_modules/addon-x/preset.js", PValue.null)]⟩) ∧
    resolveAddonName1 presetOnlyResolver ("/proj") ("addon-x") PValue.null
      ≠ resolveAddonName2 presetOnlyResolver2 ("/proj") ("addon-x") PValue.null := by
  refine ⟨rfl, rfl, ?_⟩
  intro h
  have h2 : some (ResolvedAddon.presets ("/proj/node_modules/addon-x/preset.js"))
      = some (ResolvedAddon.virtual ⟨"addon-x", none, none,
          some [("/proj/node_modules/addon-x/preset.js", PValue.null)]⟩) := h
  injection h2 with h3
  exact ResolvedAddon.noConfusion h3

/-- C2: on a specifier whose package probe resolves a preset sub-entry but
neither a manager nor a preview sub-entry, the first implementation returns
the presets result the claim describes, but the second implementation
returns a virtual result, violating the claim (and the doc comment both
implementations carry). -/
theorem claim_C2_preset_only_divergence :
    resolveAddonName1 presetOnlyResolver ("/proj") ("addon-x")
        (PValue.obj [("opt", PValue.num 1)])
      = some (ResolvedAddon.presets ("/proj/node_modules/addon-x/preset.js")) ∧
    resolveAddonName2 presetOnlyResolver2 ("/proj") ("addon-x")
        (PValue.obj [("opt", PValue.num 1)])
      = some (ResolvedAddon.virtual ⟨"addon-x", none, none,
          some [("/proj/node_modules/addon-x/preset.js", PValue.obj [("opt", PValue.num 1)])]⟩) :=
  ⟨rfl, rfl⟩

end SB
